import Mathlib

/-!
# Spatial Asset Manager — verification of the spec against the code

Shallow embedding of the repository `smcho59/spatial-asset-manager`:

* `src/backend/app/main.py` — STAC API layer: `parse_box`, `format_datetime`,
  `collection_extent`, `apply_filters`, `query_items`, the search and
  item-listing handlers, `parse_search_body`.
* `src/scripts/ingest/scan_assets.py` — ingestion pipeline: `iter_asset_paths`,
  `chunked`, `fetch_existing_paths`, `insert_items`, `build_item_row`, `main`.
* `src/scripts/derive/generate_derivatives.py` — `iter_tifs`.

Python strings are modelled as `List Char` (`Str`), machine floats as `Rat`
(the numeric claims here involve only comparisons and exact decimal
constants, never rounding), SQL timestamps as `Int`, and the PostGIS store
as an explicit list of item rows.  The spatial database engine is external
to the repository; its operators used here (`ST_Extent`, `&&` on bounding
boxes, `MIN`/`MAX`, `ORDER BY`, `LIMIT`, `ON CONFLICT DO NOTHING`) are
modelled by their documented behaviour.  A computation that raises an
uncaught Python exception or fails at the storage layer is modelled by
`Py.exn`.
-/

/-- Python strings, modelled as explicit character lists. -/
abbrev Str := List Char

/-- Result of running a piece of Python code: a value, or an uncaught
exception (which FastAPI surfaces as a server error, never a client
error). -/
inductive Py (α : Type) where
  | ok (a : α) : Py α
  | exn : Py α
deriving DecidableEq, Repr

/-! ## The regex of `parse_box` (`main.py` lines 44–51)

The source uses a *raw* string, so `re` receives the pattern text

  `BOX\\(([-\\d\\.]+) ([-\\d\\.]+),([-\\d\\.]+) ([-\\d\\.]+)\\)`

verbatim.  The regex engine therefore parses: literal `BOX`, then `\\`
(an escaped literal backslash), then `(` opening a capture group that
spans the rest of the pattern; inside it, four inner groups each matching
one-or-more characters of the class `[-\\d\\.]`, whose members after
escaping are the four characters `-`, `\`, `d`, `.` (NOT digits); then
`\\` (another literal backslash) and the final `)` closing the outer
group.  So a successful match requires a literal backslash right after
`BOX`, and `match.groups()` has five entries (the outer group plus four
inner ones), so `minx, miny, maxx, maxy = map(float, match.groups())`
raises `ValueError` on any successful match: the lazily-mapped `float`
hits the outer group first, a string over the alphabet `- \ d .` that
can never parse as a float — and even if each conversion succeeded,
five values would not unpack into four names. -/

/-- One token of the (already parsed) regular expression: a literal
character, or a one-or-more repetition of a character class. -/
inductive RTok where
  | lit (c : Char) : RTok
  | plus (p : Char → Bool) : RTok

/-- The character class `[-\\d\\.]` as the regex engine reads it:
`-`, escaped `\`, literal `d`, literal `.` (digits are NOT matched). -/
def boxClass (c : Char) : Bool :=
  c == '-' || c == '\\' || c == 'd' || c == '.'

/-- The token sequence of the pattern (group parentheses consume no
input; the final `)` of the pattern closes the outer group and is not a
literal). -/
def boxPattern : List RTok :=
  [RTok.lit 'B', RTok.lit 'O', RTok.lit 'X', RTok.lit '\\',
   RTok.plus boxClass, RTok.lit ' ', RTok.plus boxClass, RTok.lit ',',
   RTok.plus boxClass, RTok.lit ' ', RTok.plus boxClass,
   RTok.lit '\\']

/-- One-or-more repetition: consume at least one character satisfying
`p`, then hand every possible remainder to the continuation `f`
(exhaustive backtracking). -/
def plusTry (p : Char → Bool) (f : Str → Bool) : Str → Bool
  | [] => false
  | x :: xs => p x && (f xs || plusTry p f xs)

/-- `re.match` semantics for this pattern shape: anchored at the start of
the input, free tail.  Backtracking over `plus` is explored exhaustively,
so the boolean result is exactly "some match exists"; which alternative
the engine prefers only affects group contents, which the caller never
reads successfully anyway. -/
def reMatch : List RTok → Str → Bool
  | [], _ => true
  | RTok.lit c :: ts, s =>
      match s with
      | [] => false
      | x :: xs => x == c && reMatch ts xs
  | RTok.plus p :: ts, s => plusTry p (reMatch ts) s

/-- `parse_box` (`main.py` 44–51).  `if not extent: return None` covers
both SQL `NULL` and the empty string.  On a failed match it returns
`None`; a successful match always raises an uncaught `ValueError`
(see the section comment above). -/
def parse_box (extent : Option Str) : Py (Option (List Rat)) :=
  match extent with
  | none => Py.ok none
  | some s =>
      if s = [] then Py.ok none
      else if reMatch boxPattern s then Py.exn
      else Py.ok none

/-- `format_datetime` (`main.py` 54–57): timestamps are modelled as `Int`
and `isoformat() + "Z"` as decimal rendering followed by `'Z'`. -/
def format_datetime (value : Option Int) : Option Str :=
  value.map (fun t =>
    (if t < 0 then ['-'] else []) ++ Nat.toDigits 10 t.natAbs ++ ['Z'])

/-- An axis-aligned bounding box (the PostGIS `box2d`). -/
structure Box where
  minx : Rat
  miny : Rat
  maxx : Rat
  maxy : Rat
deriving DecidableEq, Repr

/-- Union of two boxes, as PostGIS `ST_Extent` accumulates envelopes. -/
def boxUnion (a b : Box) : Box :=
  ⟨min a.minx b.minx, min a.miny b.miny, max a.maxx b.maxx, max a.maxy b.maxy⟩

/-- One row of the `items` table.  `geom` is stored in EPSG:4326; for the
operators the API uses (`ST_Extent`, `&&`) only the geometry's envelope
matters, so a geometry is modelled by its bounding box.  `year`, `region`
and `zone` are the values of `properties->>'year'` etc. (`none` = the
JSON key is absent, so the SQL extraction yields `NULL`). -/
structure ItemRow where
  id : Str
  collection_id : Str
  nas_path : Str
  geom : Option Box
  dt : Option Int
  year : Option Str
  region : Option Str
  zone : Option Str
deriving DecidableEq, Repr

/-- `ST_Extent(geom)` over a set of rows: the union envelope of the
non-`NULL` geometries, or SQL `NULL` if there are none. -/
def st_extent (rows : List ItemRow) : Option Box :=
  rows.foldl
    (fun acc r =>
      match r.geom with
      | none => acc
      | some g =>
          match acc with
          | none => some g
          | some a => some (boxUnion a g))
    none

/-- Decimal rendering of a rational, used only to build the textual
`BOX(... ...)` form PostGIS returns; every claim below depends only on
the `BOX(` lead-in, never on the digits. -/
def ratStr (q : Rat) : Str :=
  (if q < 0 then ['-'] else []) ++ Nat.toDigits 10 q.num.natAbs ++
    (if q.den = 1 then [] else '/' :: Nat.toDigits 10 q.den)

/-- The textual form in which PostGIS returns an `ST_Extent` aggregate:
`BOX(minx miny,maxx maxy)`. -/
def boxStr (b : Box) : Str :=
  'B' :: 'O' :: 'X' :: '(' ::
    (ratStr b.minx ++ [' '] ++ ratStr b.miny ++ [','] ++
     ratStr b.maxx ++ [' '] ++ ratStr b.maxy ++ [')'])

/-- `MIN` of an SQL column: `NULL`s ignored, `NULL` over the empty set. -/
def sqlMin (l : List Int) : Option Int :=
  l.foldl (fun acc x => some (match acc with | none => x | some m => min m x)) none

/-- `MAX` of an SQL column. -/
def sqlMax (l : List Int) : Option Int :=
  l.foldl (fun acc x => some (match acc with | none => x | some m => max m x)) none

/-- The value `collection_extent` returns: `spatial.bbox` is a singleton
list holding one four-number bbox, `temporal.interval` a singleton list
holding one `(start, end)` pair. -/
structure CollectionExtent where
  spatial_bbox : List (List Rat)
  temporal_interval : List (Option Str × Option Str)
deriving DecidableEq, Repr

/-- `collection_extent` (`main.py` 60–81).  The aggregate query always
returns exactly one row, so the `if row` guards are taken.  `if not
bbox:` replaces both `None` and an empty list by the whole-world
default. -/
def collection_extent (store : List ItemRow) (collection_id : Str) :
    Py CollectionExtent :=
  let rows := store.filter (fun r => r.collection_id == collection_id)
  let min_dt := format_datetime (sqlMin (rows.filterMap (fun r => r.dt)))
  let max_dt := format_datetime (sqlMax (rows.filterMap (fun r => r.dt)))
  match parse_box ((st_extent rows).map boxStr) with
  | Py.exn => Py.exn
  | Py.ok bbox? =>
      let bbox :=
        match bbox? with
        | none => [(-180 : Rat), -90, 180, 90]
        | some l => if l = [] then [(-180 : Rat), -90, 180, 90] else l
      Py.ok { spatial_bbox := [bbox],
              temporal_interval := [(min_dt, max_dt)] }

/-- A concrete persisted item with a geometry, used to exercise
`collection_extent` on a non-empty collection. -/
def exItem : ItemRow :=
  { id := "nas-aa".data
    collection_id := "nas-assets".data
    nas_path := "/nas/a.tif".data
    geom := some ⟨0, 0, 1, 1⟩
    dt := some 100
    year := none
    region := none
    zone := none }

/-! ## Query translation (`main.py` 290–341) -/

/-- One storage predicate produced by the filter translation, in the
order `apply_filters` / `query_items` append them. -/
inductive SqlPred where
  | collection (c : Str) : SqlPred
  | year (s : Str) : SqlPred
  | region (s : Str) : SqlPred
  | zone (s : Str) : SqlPred
  | bbox (l : List Rat) : SqlPred
deriving DecidableEq, Repr

/-- `apply_filters` (`main.py` 290–310).  `if year:` / `if region:` use
Python truthiness, so an empty string disables the filter exactly like
`None`; the zone check is `if zone is not None:`, so an empty string
still produces a predicate; `if bbox:` treats an empty list like
`None`. -/
def apply_filters (year region zone : Option Str) (bbox : Option (List Rat)) :
    List SqlPred :=
  (match year with
   | some s => if s = [] then [] else [SqlPred.year s]
   | none => [])
  ++ (match region with
      | some s => if s = [] then [] else [SqlPred.region s]
      | none => [])
  ++ (match zone with
      | some s => [SqlPred.zone s]
      | none => [])
  ++ (match bbox with
      | some l => if l = [] then [] else [SqlPred.bbox l]
      | none => [])

/-- The `WHERE` predicates of `query_items` (`main.py` 313–327):
`if collection_id:` (truthiness again) then `apply_filters`. -/
def wherePreds (collection_id : Option Str) (year region zone : Option Str)
    (bbox : Option (List Rat)) : List SqlPred :=
  (match collection_id with
   | some c => if c = [] then [] else [SqlPred.collection c]
   | none => [])
  ++ apply_filters year region zone bbox

/-- Try a continuation on every tail of the text (used by the `%`
wildcard, which matches any — possibly empty — substring). -/
def sufAny (f : Str → Bool) : Str → Bool
  | [] => f []
  | x :: xs => f (x :: xs) || sufAny f xs

/-- SQL `ILIKE`: `%` matches any substring, `_` any single character,
every other pattern character matches itself case-insensitively
(escape sequences are not used by this code base). -/
def likeMatch : Str → Str → Bool
  | [], t => t.isEmpty
  | '%' :: ps, t => sufAny (likeMatch ps) t
  | '_' :: ps, t =>
      match t with
      | [] => false
      | _ :: ts => likeMatch ps ts
  | p :: ps, t =>
      match t with
      | [] => false
      | c :: ts => (p.toLower == c.toLower) && likeMatch ps ts

/-- PostGIS `&&`: bounding boxes intersect (boundary contact counts). -/
def boxesIntersect (p q : Box) : Bool :=
  p.minx ≤ q.maxx && q.minx ≤ p.maxx && p.miny ≤ q.maxy && q.miny ≤ p.maxy

/-- Whether one row satisfies one predicate.  An SQL comparison against a
`NULL` extraction is never true. -/
def predHolds (r : ItemRow) : SqlPred → Bool
  | SqlPred.collection c => r.collection_id == c
  | SqlPred.year s =>
      match r.year with
      | some v => v == s
      | none => false
  | SqlPred.region s =>
      match r.region with
      | some v => likeMatch s v
      | none => false
  | SqlPred.zone s =>
      match r.zone with
      | some v => v == s
      | none => false
  | SqlPred.bbox l =>
      match r.geom, l with
      | some g, [a, b, c, d] => boxesIntersect g ⟨a, b, c, d⟩
      | _, _ => false

/-- `query_items` (`main.py` 313–341).  The SQL template has exactly four
`%s` placeholders inside `ST_MakeEnvelope`, so a non-empty bbox list of
any other length makes `cur.execute` fail (a storage error the handler
does not catch); a negative `LIMIT` is likewise a storage error.
`ORDER BY id` is modelled by an insertion sort on the id column and
`LIMIT` by `take`. -/
def query_items (store : List ItemRow) (collection_id : Option Str)
    (year region zone : Option Str) (bbox : Option (List Rat))
    (limit : Int) : Py (List ItemRow) :=
  let preds := wherePreds collection_id year region zone bbox
  if (match bbox with
      | some l => decide (l ≠ [] ∧ l.length ≠ 4)
      | none => false) then Py.exn
  else if limit < 0 then Py.exn
  else
    Py.ok ((((store.filter (fun r => preds.all (predHolds r))).insertionSort
        (fun a b => a.id ≤ b.id))).take limit.toNat)

/-! ## HTTP handlers (`main.py` 344–517)

FastAPI evaluates the declared query-parameter constraints
(`Query(ge=1, le=1000)` on `limit`) before the handler body runs and
answers 422 on violation; an exception escaping the handler body is a
500.  Both outcomes are distinguished from a normal feature response. -/

/-- Outcome of one request, as the client sees it. -/
inductive HandlerResult where
  | ok (features : List ItemRow) : HandlerResult
  | clientError : HandlerResult
  | serverError : HandlerResult
deriving DecidableEq, Repr

/-- Python `str.split(sep)` for a one-character separator: always
returns at least one (possibly empty) piece. -/
def pySplit (sep : Char) : Str → List Str
  | [] => [[]]
  | c :: r =>
      if c == sep then [] :: pySplit sep r
      else
        match pySplit sep r with
        | h :: t => (c :: h) :: t
        | [] => [[c]]

/-- A decimal digit's value. -/
def digitVal (c : Char) : Option Nat :=
  if c.isDigit then some (c.toNat - '0'.toNat) else none

/-- All-digit string to a number (`none` on a non-digit; `some 0` on the
empty string — callers handle emptiness themselves). -/
def decDigits (l : Str) : Option Nat :=
  l.foldl
    (fun acc c =>
      match acc, digitVal c with
      | some a, some d => some (a * 10 + d)
      | _, _ => none)
    (some 0)

/-- Model of Python `float(str)` on the forms this API receives: an
optional sign, then `d+`, `d+.d*` or `.d+`.  (Exponents, `inf`/`nan`
and surrounding whitespace are not modelled; the claims exercise only
plain decimal strings and clearly non-numeric ones.)  `none` models the
`ValueError` that the handlers never catch. -/
def pyFloat (s : Str) : Option Rat :=
  let (neg, body) :=
    match s with
    | '-' :: r => (true, r)
    | '+' :: r => (false, r)
    | r => (false, r)
  let value? : Option Rat :=
    match pySplit '.' body with
    | [ip] =>
        if ip = [] then none
        else (decDigits ip).map (fun n => (n : Rat))
    | [ip, fp] =>
        if ip = [] ∧ fp = [] then none
        else
          match decDigits ip, decDigits fp with
          | some i, some f => some ((i : Rat) + (f : Rat) / ((10 : Rat) ^ fp.length))
          | _, _ => none
    | _ => none
  value?.map (fun v => if neg then -v else v)

/-- `[float(x) for x in bbox.split(",")]`. -/
def floatsOfCsv (s : Str) : Option (List Rat) :=
  (pySplit ',' s).mapM pyFloat

/-- The `bbox_vals = [float(x) for x in bbox.split(",")] if bbox else
None` line shared by the GET handlers; a conversion failure is an
uncaught `ValueError`. -/
def parse_bbox_param (bbox : Option Str) : Py (Option (List Rat)) :=
  match bbox with
  | none => Py.ok none
  | some s =>
      if s = [] then Py.ok none
      else
        match floatsOfCsv s with
        | none => Py.exn
        | some l => Py.ok (some l)

/-- `collections.split(",")[0] if collections else None`
(`main.py` 477). -/
def getScope (collections : Option Str) : Option Str :=
  match collections with
  | none => none
  | some s => if s = [] then none else (pySplit ',' s).headD []

/-- `search_items_get` (`main.py` 466–495), composed with FastAPI's
`limit` validation. -/
def search_items_get (store : List ItemRow) (year region zone : Option Str)
    (bbox : Option Str) (limit : Int) (collections : Option Str) :
    HandlerResult :=
  if limit < 1 ∨ 1000 < limit then HandlerResult.clientError
  else
    match parse_bbox_param bbox with
    | Py.exn => HandlerResult.serverError
    | Py.ok bv =>
        match query_items store (getScope collections) year region zone bv limit with
        | Py.exn => HandlerResult.serverError
        | Py.ok items => HandlerResult.ok items

/-- `list_collection_items` (`main.py` 344–395), composed with FastAPI's
`limit` validation. -/
def list_collection_items (store : List ItemRow) (collection_id : Str)
    (year region zone : Option Str) (bbox : Option Str) (limit : Int) :
    HandlerResult :=
  if limit < 1 ∨ 1000 < limit then HandlerResult.clientError
  else
    match parse_bbox_param bbox with
    | Py.exn => HandlerResult.serverError
    | Py.ok bv =>
        match query_items store (some collection_id) year region zone bv limit with
        | Py.exn => HandlerResult.serverError
        | Py.ok items => HandlerResult.ok items

/-- The JSON body of a POST search, with each field either absent or a
value of the type this code base sends it as (`query` subfields already
resolved to `query[field].get("eq")`: the outer `Option` is "the field
is present and is a dict", the inner one is the `eq` value). -/
structure SearchBody where
  collections : Option (List Str) := none
  bbox : Option (List Rat) := none
  limit : Option Int := none
  query_year : Option (Option Str) := none
  query_region : Option (Option Str) := none
  query_zone : Option (Option Str) := none
deriving DecidableEq, Repr

/-- The dictionary `parse_search_body` returns. -/
structure ParsedSearch where
  collections : List Str
  bbox : Option (List Rat)
  limit : Int
  year : Option Str
  region : Option Str
  zone : Option Str
deriving DecidableEq, Repr

/-- `parse_search_body` (`main.py` 413–435).  `body.get("collections")
or []` maps both an absent key and an empty list to `[]`;
`int(body.get("limit", 100))` applies no range check whatsoever;
`query[f].get("eq")` yields `None` when `eq` is absent. -/
def parse_search_body (b : SearchBody) : ParsedSearch :=
  { collections := b.collections.getD []
    bbox := b.bbox
    limit := b.limit.getD 100
    year := b.query_year.getD none
    region := b.query_region.getD none
    zone := b.query_zone.getD none }

/-- `search_items` (`main.py` 438–458): the POST search handler.
`parsed["collections"][0] if parsed["collections"] else None` keeps only
the head of the collections list. -/
def search_items (store : List ItemRow) (body : Option SearchBody) :
    HandlerResult :=
  let b := body.getD {}
  let p := parse_search_body b
  match query_items store p.collections.head? p.year p.region p.zone p.bbox
      p.limit with
  | Py.exn => HandlerResult.serverError
  | Py.ok items => HandlerResult.ok items

/-! ## Crawlers (`scan_assets.py` 43–48, `generate_derivatives.py` 12–16)

A filesystem path is a list of name components from the filesystem root;
a source tree is the list of file paths it contains.  `os.walk(root)` /
`root.rglob` enumerate exactly the files lying strictly below `root`. -/

/-- A filesystem path, as its list of name components. -/
abbrev FPath := List Str

/-- `d` is a strict ancestor directory of `p` (pathlib: `d in
p.parents`). -/
def underDir (d p : FPath) : Bool :=
  p.take d.length == d && decide (d.length < p.length)

/-- `pathlib.PurePath.suffix` of a file name: the part from the last
dot, provided that dot is neither the first nor the last character;
otherwise the empty string. -/
def pathSuffix (name : Str) : Str :=
  let tail := name.reverse.takeWhile (fun c => c ≠ '.')
  if tail.length = name.length then []
  else
    let j := name.length - 1 - tail.length
    if 0 < j ∧ j < name.length - 1 then name.drop j else []

/-- `EXTENSIONS` (`scan_assets.py` 22). -/
def EXTENSIONS : List Str :=
  [".tif".data, ".tiff".data, ".shp".data, ".geojson".data, ".gpkg".data]

/-- The file name (final component) of a path. -/
def fileName (p : FPath) : Str := p.getLastD []

/-- `iter_asset_paths` (`scan_assets.py` 43–48): every file under
`root` whose lower-cased suffix is a recognized extension.  There is no
exclusion of any output/derivative subtree here. -/
def iter_asset_paths (tree : List FPath) (root : FPath) : List FPath :=
  tree.filter (fun p =>
    underDir root p && EXTENSIONS.contains ((pathSuffix (fileName p)).map Char.toLower))

/-- `iter_tifs` (`generate_derivatives.py` 12–16): `root.rglob("*.tif")`
filtered by `skip_root in path.parents`. -/
def iter_tifs (tree : List FPath) (root skip_root : FPath) : List FPath :=
  tree.filter (fun p =>
    underDir root p && ".tif".data.isSuffixOf (fileName p) && !underDir skip_root p)

/-! ## Ingestion pipeline (`scan_assets.py` 109–313)

The metadata extractors read only the (unchanged) source tree, so they
are modelled as data attached to each candidate file: `meta = none`
covers both "no determinable CRS / empty bounds" (the extractor returns
`None`) and an extraction exception — `main` skips the file in either
case.  The identifier hash (`hashlib.sha1`) is an arbitrary function
parameter `hash`, and the NAS path rendering is abstracted to the
file's canonical path string (deterministic across runs, which is all
the code relies on). -/

/-- Extracted spatial metadata of one candidate (post-reprojection). -/
structure AssetMeta where
  bbox : Box
  epsg : Option Int
deriving DecidableEq, Repr

/-- One candidate file of the (unchanged) source tree. -/
structure FSFile where
  path : FPath
  mtime : Int
  meta : Option AssetMeta
deriving DecidableEq, Repr

/-- The path string stored in `nas_path` for a candidate (the
`Path(nas_host_root) / rel_path` string of `main`, deterministic in the
file's location). -/
def nas_path_of (f : FSFile) : Str :=
  List.intercalate ['/'] f.path

/-- `item_id = f"nas-{hash_path(nas_path)}"` (`scan_assets.py` 187,
209–212). -/
def item_id (hash : Str → Str) (nas_path : Str) : Str :=
  "nas-".data ++ hash nas_path

/-- `build_item_row` (`scan_assets.py` 161–206), restricted to the
columns the store model carries.  `properties` contains only
`proj:epsg` and `file:size`, so the search-filter extractions
(`year`/`region`/`zone`) are all `NULL`. -/
def build_item_row (hash : Str → Str) (collection_id : Str) (f : FSFile)
    (m : AssetMeta) : ItemRow :=
  { id := item_id hash (nas_path_of f)
    collection_id := collection_id
    nas_path := nas_path_of f
    geom := some m.bbox
    dt := some f.mtime
    year := none
    region := none
    zone := none }

/-- One row of `INSERT ... ON CONFLICT (id) DO NOTHING`: the row is
dropped exactly when its `id` already exists (rows earlier in the same
statement included). The conflict target is the id column, not
`nas_path`. -/
def insert_one (store : List ItemRow) (r : ItemRow) : List ItemRow :=
  if store.any (fun x => x.id == r.id) then store else store ++ [r]

/-- `insert_items` (`scan_assets.py` 142–158). -/
def insert_items (store : List ItemRow) (rows : List ItemRow) : List ItemRow :=
  rows.foldl insert_one store

/-- `fetch_existing_paths` (`scan_assets.py` 109–115): the subset of the
given paths already present in the store. -/
def fetch_existing_paths (store : List ItemRow) (paths : List Str) : List Str :=
  paths.filter (fun p => store.any (fun r => r.nas_path == p))

/-- `chunked` (`scan_assets.py` 51–59): the generator's accumulator,
flushed whenever it reaches `size` and once more at the end. -/
def chunkAux (size : Nat) : List α → List α → List (List α)
  | [], batch => if batch.isEmpty then [] else [batch]
  | x :: xs, batch =>
      let b := batch ++ [x]
      if size ≤ b.length then b :: chunkAux size xs []
      else chunkAux size xs b

/-- `chunked(items, size)`. -/
def chunked (size : Nat) (l : List α) : List (List α) :=
  chunkAux size l []

/-- The mutable state of `main`'s scan loop: the store plus the
`pending_rows` buffer. -/
structure RunState where
  store : List ItemRow
  pending : List ItemRow
deriving DecidableEq, Repr

/-- The body of `main`'s inner loop (`scan_assets.py` 265–300) for one
candidate: skip if the batched existence check reported the path, skip
on failed metadata extraction, otherwise buffer the built row and flush
the buffer through `insert_items` once it reaches the insert batch
size. -/
def process_candidate (hash : Str → Str) (collection_id : Str)
    (insert_batch : Nat) (existing : List Str) (st : RunState) (f : FSFile) :
    RunState :=
  if existing.contains (nas_path_of f) then st
  else
    match f.meta with
    | none => st
    | some m =>
        let pending := st.pending ++ [build_item_row hash collection_id f m]
        if insert_batch ≤ pending.length then
          { store := insert_items st.store pending, pending := [] }
        else
          { store := st.store, pending := pending }

/-- One batch of `main`'s outer loop (`scan_assets.py` 262–300): one
existence-check round trip for the whole batch, then the per-candidate
loop. -/
def process_batch (hash : Str → Str) (collection_id : Str)
    (insert_batch : Nat) (st : RunState) (batch : List FSFile) : RunState :=
  let existing := fetch_existing_paths st.store (batch.map nas_path_of)
  batch.foldl (process_candidate hash collection_id insert_batch existing) st

/-- A whole (non-dry-run) ingestion pass (`scan_assets.py` 262–304):
scan batches in order, then flush the final partial buffer. -/
def ingest_run (hash : Str → Str) (collection_id : Str)
    (batch_size insert_batch : Nat) (files : List FSFile)
    (store : List ItemRow) : List ItemRow :=
  let fin := (chunked batch_size files).foldl
    (process_batch hash collection_id insert_batch) { store := store, pending := [] }
  insert_items fin.store fin.pending

/-! ## Projections and concrete fixtures used by the theorems below -/

/-- The id column of a store. -/
def storeIds (store : List ItemRow) : List Str := store.map ItemRow.id

/-- The `nas_path` column of a store. -/
def storePaths (store : List ItemRow) : List Str := store.map ItemRow.nas_path

/-- All ids present in the scan loop's state (committed or buffered). -/
def stateIds (st : RunState) : List Str := storeIds st.store ++ storeIds st.pending

/-- Whether a predicate is the zone-equality predicate. -/
def isZoneP : SqlPred → Bool
  | SqlPred.zone _ => true
  | _ => false

/-- The zone predicates among a translated filter list. -/
def zonePreds (l : List SqlPred) : List SqlPred := l.filter isZoneP

/-- A second persisted item, with a larger identifier than `exItem`. -/
def exItemB : ItemRow :=
  { id := "nas-zz".data
    collection_id := "nas-assets".data
    nas_path := "/nas/b.tif".data
    geom := some ⟨2, 2, 3, 3⟩
    dt := some 200
    year := none
    region := none
    zone := none }

/-- A stored row for source path `/nas/p.tif` with identifier `nas-1`. -/
def dupPathRowA : ItemRow :=
  { id := "nas-1".data
    collection_id := "c".data
    nas_path := "/nas/p.tif".data
    geom := some ⟨0, 0, 1, 1⟩
    dt := some 1
    year := none
    region := none
    zone := none }

/-- A row for the *same* source path `/nas/p.tif` but identifier
`nas-2`. -/
def dupPathRowB : ItemRow :=
  { id := "nas-2".data
    collection_id := "c".data
    nas_path := "/nas/p.tif".data
    geom := some ⟨0, 0, 1, 1⟩
    dt := some 2
    year := none
    region := none
    zone := none }

/-- A row with the same identifier as `dupPathRowA` but another path. -/
def dupIdRow : ItemRow :=
  { id := "nas-1".data
    collection_id := "c".data
    nas_path := "/nas/q.tif".data
    geom := some ⟨5, 5, 6, 6⟩
    dt := some 3
    year := none
    region := none
    zone := none }

/-- A crawl candidate whose metadata extraction fails (no determinable
CRS), so it is skipped by every run without ever being persisted. -/
def noCrsFile : FSFile :=
  { path := ["nas".data, "b.tif".data], mtime := 0, meta := none }

/-! # Theorems

Claim theorems are named `C<n>_...`; everything else is a shared
lemma. -/

/-- The dead regex: the pattern demands a literal backslash right after
`BOX`, but PostGIS emits `BOX(`, so `re.match` fails on every real
`ST_Extent` string. -/
theorem reMatch_boxTok_false (b : Box) :
    reMatch boxPattern (boxStr b) = false := rfl

/-- Hence `parse_box` returns `None` on every real `ST_Extent` string. -/
theorem parse_box_boxStr (b : Box) : parse_box (some (boxStr b)) = Py.ok none := by
  have hne : boxStr b ≠ [] := by simp [boxStr]
  simp [parse_box, hne, reMatch_boxTok_false]

/-- `collection_extent` therefore reports the whole-world default bbox on
*every* store and collection, empty or not. -/
theorem collection_extent_always_world (store : List ItemRow) (cid : Str) :
    collection_extent store cid =
      Py.ok
        { spatial_bbox := [[-180, -90, 180, 90]],
          temporal_interval :=
            [(format_datetime
                (sqlMin (((store.filter (fun r => r.collection_id == cid))).filterMap
                  (fun r => r.dt))),
              format_datetime
                (sqlMax (((store.filter (fun r => r.collection_id == cid))).filterMap
                  (fun r => r.dt))))] } := by
  unfold collection_extent
  dsimp only
  cases h : st_extent (store.filter (fun r => r.collection_id == cid)) with
  | none => simp [parse_box]
  | some b => simp [parse_box_boxStr]

/-- C1.  The claim says `collection_extent` returns the union bounding
box of the collection's item geometries; the code cannot: `parse_box`'s
pattern is written `r"BOX\\(..."` — inside a raw string the regex engine
reads `\\` as a literal backslash and the class `[-\\d\\.]` as the
character set `- \ d .`, so the match fails on every PostGIS
`BOX(minx miny,maxx maxy)` string and the whole-world fallback is taken
even for a one-item collection whose union box is `[0,0,1,1]`. -/
theorem C1_extent_never_union_bbox :
    st_extent (List.filter (fun r => r.collection_id == "nas-assets".data) [exItem]) =
        some ⟨0, 0, 1, 1⟩
    ∧ collection_extent [exItem] ("nas-assets".data) =
        Py.ok { spatial_bbox := [[-180, -90, 180, 90]],
                temporal_interval :=
                  [(some ['1', '0', '0', 'Z'], some ['1', '0', '0', 'Z'])] }
    ∧ ([[(-180 : Rat), -90, 180, 90]] : List (List Rat)) ≠ [[0, 0, 1, 1]] := by
  refine ⟨by decide, by decide, by decide⟩

/-- C7.  A collection with zero items gets the whole-world default bbox
and the null temporal interval `[[null, null]]`. -/
theorem C7_empty_collection_world_extent (store : List ItemRow) (cid : Str)
    (h : store.filter (fun r => r.collection_id == cid) = []) :
    collection_extent store cid =
      Py.ok { spatial_bbox := [[-180, -90, 180, 90]],
              temporal_interval := [(none, none)] } := by
  unfold collection_extent
  rw [h]
  simp [st_extent, sqlMin, sqlMax, format_datetime, parse_box]

/-- Witness for C7 at a store whose only item belongs to another
collection. -/
theorem C7_empty_collection_world_extent_witness :
    collection_extent [exItem] ("empty-collection".data) =
      Py.ok { spatial_bbox := [[-180, -90, 180, 90]],
              temporal_interval := [(none, none)] } :=
  C7_empty_collection_world_extent [exItem] ("empty-collection".data) (by decide)

/-- The zone predicates a translated filter list contains: exactly one
equality predicate when `zone` is present (empty string included), none
when it is absent. -/
theorem zonePreds_af (year region zone : Option Str) (bbox : Option (List Rat)) :
    zonePreds (apply_filters year region zone bbox) =
      (match zone with
       | some s => [SqlPred.zone s]
       | none => []) := by
  cases year <;> cases region <;> cases zone <;> cases bbox <;>
    · simp only [apply_filters, zonePreds, List.filter_append]
      (try split_ifs) <;> simp [isZoneP]

/-- C9.  In `apply_filters`, `if year:` / `if region:` use Python
truthiness, so an empty string disables those filters exactly like an
absent one; the zone check is `if zone is not None:`, so an empty string
still yields an equality predicate comparing the zone property to the
empty string, and only an absent zone yields no zone predicate. -/
theorem C9_empty_string_filter_semantics :
    (∀ region zone bbox,
        apply_filters (some []) region zone bbox = apply_filters none region zone bbox)
    ∧ (∀ year zone bbox,
        apply_filters year (some []) zone bbox = apply_filters year none zone bbox)
    ∧ (∀ year region bbox,
        zonePreds (apply_filters year region (some []) bbox) = [SqlPred.zone []])
    ∧ (∀ year region bbox,
        zonePreds (apply_filters year region none bbox) = []) := by
  refine ⟨fun region zone bbox => by simp [apply_filters],
          fun year zone bbox => by simp [apply_filters],
          fun year region bbox => by simp [zonePreds_af],
          fun year region bbox => by simp [zonePreds_af]⟩

/-- C3 counterexample: a POST `/search` body with `limit = 1001` is not
rejected — `parse_search_body` applies `int()` with no range check and
the limit flows straight into the query. -/
theorem C3_counterexample :
    search_items [] (some { limit := some 1001 }) = HandlerResult.ok []
    ∧ search_items [] (some { limit := some 1001 }) ≠ HandlerResult.clientError := by
  refine ⟨by decide, by decide⟩

/-- C3 (amended).  The GET handlers (`/search`, collection items) carry
`Query(ge=1, le=1000)`, so FastAPI rejects an out-of-range limit with a
422 client error before the handler body runs — never clamping it; the
POST `/search` handler applies no bound at all: any non-negative body
limit reaches the storage query unchanged. -/
theorem C3_get_limit_rejected_post_limit_passed :
    (∀ store year region zone bbox limit collections,
        (limit < 1 ∨ 1000 < limit) →
        search_items_get store year region zone bbox limit collections =
          HandlerResult.clientError)
    ∧ (∀ store cid year region zone bbox limit,
        (limit < 1 ∨ 1000 < limit) →
        list_collection_items store cid year region zone bbox limit =
          HandlerResult.clientError)
    ∧ (∀ limit : Int, 0 ≤ limit →
        search_items [] (some { limit := some limit }) = HandlerResult.ok []) := by
  refine ⟨fun store year region zone bbox limit collections h => ?_,
          fun store cid year region zone bbox limit h => ?_,
          fun limit h => ?_⟩
  · simp [search_items_get, h]
  · simp [list_collection_items, h]
  · have hlt : ¬limit < 0 := not_lt.mpr h
    simp [search_items, parse_search_body, query_items, wherePreds, apply_filters, hlt]

/-- Witness for C3's amended statement at `limit = 1001` and
`limit = 0`. -/
theorem C3_get_limit_rejected_post_limit_passed_witness :
    search_items_get [] none none none none 1001 none = HandlerResult.clientError
    ∧ list_collection_items [] ("c".data) none none none none 0 =
        HandlerResult.clientError
    ∧ search_items [] (some { limit := some 1001 }) = HandlerResult.ok [] :=
  ⟨C3_get_limit_rejected_post_limit_passed.1 [] none none none none 1001 none
      (by decide),
   C3_get_limit_rejected_post_limit_passed.2.1 [] ("c".data) none none none none 0
      (by decide),
   C3_get_limit_rejected_post_limit_passed.2.2 1001 (by decide)⟩

/-- C5 counterexample: a GET search whose bbox holds a non-numeric
value makes the uncaught `float()` conversion error surface as a server
error — the request is not rejected with a client error. -/
theorem C5_counterexample :
    search_items_get [] none none none (some "0,0,abc,1".data) 100 none =
        HandlerResult.serverError
    ∧ search_items_get [] none none none (some "0,0,abc,1".data) 100 none ≠
        HandlerResult.clientError :=
  ⟨by decide, by decide⟩

/-- C5 (amended).  A malformed bbox on a GET search or item-listing
request is never rejected with a client error: a non-numeric component
raises an uncaught conversion error, and a wrong-arity bbox produces a
parameter-count mismatch in the storage query; both surface as server
errors.  (The filter is not silently dropped either.) -/
theorem C5_malformed_bbox_server_error :
    (∀ store year region zone (s : Str) limit collections,
        1 ≤ limit → limit ≤ 1000 → s ≠ [] → floatsOfCsv s = none →
        search_items_get store year region zone (some s) limit collections =
          HandlerResult.serverError)
    ∧ (∀ store cid year region zone (s : Str) limit,
        1 ≤ limit → limit ≤ 1000 → s ≠ [] → floatsOfCsv s = none →
        list_collection_items store cid year region zone (some s) limit =
          HandlerResult.serverError)
    ∧ (∀ store year region zone (s : Str) limit collections bv,
        1 ≤ limit → limit ≤ 1000 → s ≠ [] → floatsOfCsv s = some bv →
        bv ≠ [] → bv.length ≠ 4 →
        search_items_get store year region zone (some s) limit collections =
          HandlerResult.serverError)
    ∧ (∀ store cid year region zone (s : Str) limit bv,
        1 ≤ limit → limit ≤ 1000 → s ≠ [] → floatsOfCsv s = some bv →
        bv ≠ [] → bv.length ≠ 4 →
        list_collection_items store cid year region zone (some s) limit =
          HandlerResult.serverError) := by
  refine ⟨?_, ?_, ?_, ?_⟩
  · intro store year region zone s limit collections h1 h2 hs hf
    have hnr : ¬(limit < 1 ∨ 1000 < limit) := by omega
    simp [search_items_get, parse_bbox_param, hs, hf, hnr]
  · intro store cid year region zone s limit h1 h2 hs hf
    have hnr : ¬(limit < 1 ∨ 1000 < limit) := by omega
    simp [list_collection_items, parse_bbox_param, hs, hf, hnr]
  · intro store year region zone s limit collections bv h1 h2 hs hf hbv hlen
    have hnr : ¬(limit < 1 ∨ 1000 < limit) := by omega
    simp [search_items_get, parse_bbox_param, hs, hf, hnr, query_items, hbv, hlen]
  · intro store cid year region zone s limit bv h1 h2 hs hf hbv hlen
    have hnr : ¬(limit < 1 ∨ 1000 < limit) := by omega
    simp [list_collection_items, parse_bbox_param, hs, hf, hnr, query_items, hbv,
      hlen]

/-- Witness for C5's amended statement: a non-numeric bbox and a
three-component bbox on both GET endpoints. -/
theorem C5_malformed_bbox_server_error_witness :
    search_items_get [exItem] none none none (some "0,0,abc,1".data) 100 none =
        HandlerResult.serverError
    ∧ list_collection_items [exItem] ("nas-assets".data) none none none
        (some "0,0,abc,1".data) 100 = HandlerResult.serverError
    ∧ search_items_get [exItem] none none none (some "0,0,1".data) 100 none =
        HandlerResult.serverError
    ∧ list_collection_items [exItem] ("nas-assets".data) none none none
        (some "0,0,1".data) 100 = HandlerResult.serverError :=
  ⟨C5_malformed_bbox_server_error.1 [exItem] none none none ("0,0,abc,1".data)
      100 none (by decide) (by decide) (by decide) (by decide),
   C5_malformed_bbox_server_error.2.1 [exItem] ("nas-assets".data) none none none
      ("0,0,abc,1".data) 100 (by decide) (by decide) (by decide) (by decide),
   C5_malformed_bbox_server_error.2.2.1 [exItem] none none none ("0,0,1".data)
      100 none [0, 0, 1] (by decide) (by decide) (by decide) (by decide)
      (by decide) (by decide),
   C5_malformed_bbox_server_error.2.2.2 [exItem] ("nas-assets".data) none none
      none ("0,0,1".data) 100 [0, 0, 1] (by decide) (by decide) (by decide)
      (by decide) (by decide) (by decide)⟩

/-- Splitting a string whose first separator occurrence is explicit:
the first piece is everything before it. -/
theorem pySplit_no_sep (sep : Char) (s1 s2 : Str) (h : sep ∉ s1) :
    pySplit sep (s1 ++ sep :: s2) = s1 :: pySplit sep s2 := by
  induction s1 with
  | nil => simp [pySplit]
  | cons c r ih =>
      have hc : (c == sep) = false := by
        simp only [beq_eq_false_iff_ne]
        exact fun hc => h (hc ▸ List.mem_cons_self c r)
      have hr : sep ∉ r := fun hm => h (List.mem_cons_of_mem c hm)
      simp [pySplit, hc, ih hr]

/-- Splitting a separator-free string yields that string alone. -/
theorem pySplit_of_not_mem (sep : Char) (s : Str) (h : sep ∉ s) :
    pySplit sep s = [s] := by
  induction s with
  | nil => simp [pySplit]
  | cons c r ih =>
      have hc : (c == sep) = false := by
        simp only [beq_eq_false_iff_ne]
        exact fun hc => h (hc ▸ List.mem_cons_self c r)
      have hr : sep ∉ r := fun hm => h (List.mem_cons_of_mem c hm)
      simp [pySplit, hc, ih hr]

/-- The GET collections parameter keeps only the piece before the first
comma. -/
theorem getScope_first (s1 s2 : Str) (h : ',' ∉ s1) :
    getScope (some (s1 ++ ',' :: s2)) = some s1 := by
  have hne : s1 ++ ',' :: s2 ≠ [] := by simp
  simp [getScope, hne, pySplit_no_sep ',' s1 s2 h]

/-- `query_items` treats an empty-string collection scope exactly like
no scope (`if collection_id:` truthiness). -/
theorem query_items_scope_blank (store : List ItemRow)
    (year region zone : Option Str) (bbox : Option (List Rat)) (limit : Int) :
    query_items store (some []) year region zone bbox limit =
      query_items store none year region zone bbox limit := by
  simp [query_items, wherePreds]

/-- C10.  Both search entry points scope the query to the *first*
collection only: the POST handler takes `parsed["collections"][0]`, the
GET handler `collections.split(",")[0]`; each further collection is
silently ignored — the response is identical to a request naming only
the first collection. -/
theorem C10_first_collection_only :
    (∀ (store : List ItemRow) (b : SearchBody) (c1 : Str) (cs : List Str),
        search_items store (some { b with collections := some (c1 :: cs) }) =
          search_items store (some { b with collections := some [c1] }))
    ∧ (∀ (store : List ItemRow) (year region zone : Option Str)
        (bbox : Option Str) (limit : Int) (s1 s2 : Str), ',' ∉ s1 →
        search_items_get store year region zone bbox limit
            (some (s1 ++ ',' :: s2)) =
          search_items_get store year region zone bbox limit (some s1)) := by
  constructor
  · intro store b c1 cs
    simp [search_items, parse_search_body]
  · intro store year region zone bbox limit s1 s2 h
    have e1 : getScope (some (s1 ++ ',' :: s2)) = some s1 := getScope_first s1 s2 h
    by_cases hs : s1 = []
    · subst hs
      have e2 : getScope (some ([] : Str)) = none := by simp [getScope]
      simp only [search_items_get, e1, e2, query_items_scope_blank]
    · have e2 : getScope (some s1) = some s1 := by
        simp [getScope, hs, pySplit_of_not_mem ',' s1 h]
      simp only [search_items_get, e1, e2]

/-- Witness for C10 with a two-collection scope on each entry point. -/
theorem C10_first_collection_only_witness :
    search_items [exItem]
        (some { collections := some ["nas-assets".data, "zzz".data] }) =
      search_items [exItem] (some { collections := some ["nas-assets".data] })
    ∧ search_items_get [exItem] none none none none 10
        (some ("nas-assets".data ++ ',' :: "zzz".data)) =
      search_items_get [exItem] none none none none 10
        (some ("nas-assets".data)) :=
  ⟨C10_first_collection_only.1 [exItem] {} ("nas-assets".data) ["zzz".data],
   C10_first_collection_only.2 [exItem] none none none none 10
     ("nas-assets".data) ("zzz".data) (by decide)⟩

/-- C4 counterexample: the ingestion crawler applies no output-subtree
exclusion — a `.tif` lying under the derivatives output subtree
(`<root>/result`, the default of `generate_derivatives`) is yielded as
an ingestion candidate. -/
theorem C4_counterexample :
    (["nas".data, "result".data, "thumb".data, "x.tif".data] : FPath) ∈
      iter_asset_paths
        [["nas".data, "a.tif".data],
         ["nas".data, "result".data, "thumb".data, "x.tif".data]]
        ["nas".data]
    ∧ underDir ["nas".data, "result".data]
        ["nas".data, "result".data, "thumb".data, "x.tif".data] = true := by
  refine ⟨by decide, by decide⟩

/-- C4 (amended).  The extension filter does hold of the ingestion
crawler: everything it yields has a recognized extension
(case-insensitively).  But only the derivatives crawler `iter_tifs`
excludes the designated output subtree, and it matches `*.tif` files
only; `iter_asset_paths` applies no subtree exclusion at all. -/
theorem C4_crawler_filters :
    (∀ (tree : List FPath) (root p : FPath),
        p ∈ iter_asset_paths tree root →
        EXTENSIONS.contains ((pathSuffix (fileName p)).map Char.toLower) = true)
    ∧ (∀ (tree : List FPath) (root skip p : FPath),
        p ∈ iter_tifs tree root skip →
        underDir skip p = false ∧ ".tif".data.isSuffixOf (fileName p) = true) := by
  constructor
  · intro tree root p hp
    have hmem := (List.mem_filter.mp hp).2
    simp only [Bool.and_eq_true] at hmem
    exact hmem.2
  · intro tree root skip p hp
    have hmem := (List.mem_filter.mp hp).2
    simp only [Bool.and_eq_true, Bool.not_eq_true'] at hmem
    exact ⟨hmem.2, hmem.1.2⟩

/-- Witness for C4's amended statement. -/
theorem C4_crawler_filters_witness :
    EXTENSIONS.contains
        ((pathSuffix (fileName ["nas".data, "a.tif".data])).map Char.toLower) =
      true
    ∧ (underDir ["nas".data, "result".data] ["nas".data, "b.tif".data] = false
       ∧ ".tif".data.isSuffixOf (fileName ["nas".data, "b.tif".data]) = true) :=
  ⟨C4_crawler_filters.1 [["nas".data, "a.tif".data]] ["nas".data]
      ["nas".data, "a.tif".data] (by decide),
   C4_crawler_filters.2 [["nas".data, "b.tif".data]] ["nas".data]
      ["nas".data, "result".data] ["nas".data, "b.tif".data] (by decide)⟩

/-- C2 counterexample: the conflict target of `insert_items` is the id
column, not the source path — a row carrying an already-stored
`nas_path` but a different id is inserted, leaving two rows for one
source path. -/
theorem C2_counterexample :
    insert_items [dupPathRowA] [dupPathRowB] = [dupPathRowA, dupPathRowB]
    ∧ ((insert_items [dupPathRowA] [dupPathRowB]).filter
        (fun r => r.nas_path == "/nas/p.tif".data)).length = 2 := by
  refine ⟨by decide, by decide⟩

/-- C2 (amended).  `insert_items` is conflict-do-nothing keyed on the
computed identifier: a row whose id is already present inserts nothing,
so the multiplicity of an existing id never grows.  (Deduplication by
source path holds only indirectly, because the pipeline derives the id
deterministically from the path.) -/
theorem C2_insert_conflict_on_id (store rows : List ItemRow) (i : Str)
    (h : i ∈ storeIds store) :
    (storeIds (insert_items store rows)).count i = (storeIds store).count i := by
  induction rows generalizing store with
  | nil => rfl
  | cons r rs ih =>
      show (storeIds (insert_items (insert_one store r) rs)).count i = _
      by_cases hc : store.any (fun x => x.id == r.id) = true
      · rw [show insert_one store r = store from by simp [insert_one, hc]]
        exact ih store h
      · have hr : r.id ∉ storeIds store := by
          intro hm
          rcases List.mem_map.mp hm with ⟨x, hx, hid⟩
          exact hc (List.any_eq_true.mpr ⟨x, hx, by simp [hid]⟩)
        have hne : r.id ≠ i := fun hri => hr (hri ▸ h)
        have e : insert_one store r = store ++ [r] := by simp [insert_one, hc]
        rw [e]
        have h2 : i ∈ storeIds (store ++ [r]) := by
          simp only [storeIds, List.map_append, List.mem_append]
          exact Or.inl h
        rw [ih (store ++ [r]) h2]
        simp [storeIds, List.count_append, List.count_cons, hne]

/-- Witness for C2's amended statement: re-inserting id `nas-1` under a
different path adds nothing for that id. -/
theorem C2_insert_conflict_on_id_witness :
    (storeIds (insert_items [dupPathRowA] [dupIdRow])).count ("nas-1".data) =
      (storeIds [dupPathRowA]).count ("nas-1".data) :=
  C2_insert_conflict_on_id [dupPathRowA] [dupIdRow] ("nas-1".data) (by decide)

/-- Whenever `query_items` answers at all, its rows are sorted by id
ascending and truncated to the limit. -/
theorem query_items_ok_sorted (store : List ItemRow)
    (collection_id year region zone : Option Str) (bbox : Option (List Rat))
    (limit : Int) (items : List ItemRow)
    (h : query_items store collection_id year region zone bbox limit =
      Py.ok items) :
    List.Sorted (fun a b : ItemRow => a.id ≤ b.id) items
    ∧ (items.length : Int) ≤ limit := by
  haveI instTot : IsTotal ItemRow (fun a b => a.id ≤ b.id) :=
    ⟨fun a b => le_total a.id b.id⟩
  haveI instTrans : IsTrans ItemRow (fun a b => a.id ≤ b.id) :=
    ⟨fun a b c hab hbc => le_trans hab hbc⟩
  unfold query_items at h
  split at h
  · exact absurd h (by simp)
  · split at h
    · exact absurd h (by simp)
    · rename_i hbbox hneg
      cases h
      constructor
      · exact List.Pairwise.sublist (List.take_sublist _ _)
          (List.sorted_insertionSort _ _)
      · have hlen := List.length_take_le limit.toNat
          ((List.filter
            (fun r => (wherePreds collection_id year region zone bbox).all
              (predHolds r)) store).insertionSort (fun a b => a.id ≤ b.id))
        have h0 : (0 : Int) ≤ limit := not_lt.mp hneg
        omega

/-- C8.  Every feature list a handler returns is ordered by item
identifier ascending (the query's `ORDER BY id`) and holds at most
`limit` features (`LIMIT`); the handlers are pure functions of the
store and the request, so repeating a request against an unchanged
store returns the same sequence by construction. -/
theorem C8_results_sorted_and_limited :
    (∀ store year region zone bbox limit collections items,
        search_items_get store year region zone bbox limit collections =
          HandlerResult.ok items →
        List.Sorted (fun a b : ItemRow => a.id ≤ b.id) items
        ∧ (items.length : Int) ≤ limit)
    ∧ (∀ store cid year region zone bbox limit items,
        list_collection_items store cid year region zone bbox limit =
          HandlerResult.ok items →
        List.Sorted (fun a b : ItemRow => a.id ≤ b.id) items
        ∧ (items.length : Int) ≤ limit)
    ∧ (∀ store body items,
        search_items store body = HandlerResult.ok items →
        List.Sorted (fun a b : ItemRow => a.id ≤ b.id) items
        ∧ (items.length : Int) ≤ (parse_search_body (body.getD {})).limit) := by
  refine ⟨?_, ?_, ?_⟩
  · intro store year region zone bbox limit collections items h
    unfold search_items_get at h
    split at h
    · exact absurd h (by simp)
    · split at h
      · exact absurd h (by simp)
      · split at h
        · exact absurd h (by simp)
        · rename_i hq
          cases h
          exact query_items_ok_sorted _ _ _ _ _ _ _ _ hq
  · intro store cid year region zone bbox limit items h
    unfold list_collection_items at h
    split at h
    · exact absurd h (by simp)
    · split at h
      · exact absurd h (by simp)
      · split at h
        · exact absurd h (by simp)
        · rename_i hq
          cases h
          exact query_items_ok_sorted _ _ _ _ _ _ _ _ hq
  · intro store body items h
    unfold search_items at h
    dsimp only at h
    split at h
    · exact absurd h (by simp)
    · rename_i hq
      cases h
      exact query_items_ok_sorted _ _ _ _ _ _ _ _ hq

/-- Witness for C8 on a two-item store queried through all three
handlers. -/
theorem C8_results_sorted_and_limited_witness :
    (List.Sorted (fun a b : ItemRow => a.id ≤ b.id) [exItem, exItemB]
      ∧ (([exItem, exItemB] : List ItemRow).length : Int) ≤ 5)
    ∧ (List.Sorted (fun a b : ItemRow => a.id ≤ b.id) [exItem]
      ∧ (([exItem] : List ItemRow).length : Int) ≤ 1)
    ∧ (List.Sorted (fun a b : ItemRow => a.id ≤ b.id) [exItem, exItemB]
      ∧ (([exItem, exItemB] : List ItemRow).length : Int) ≤
          (parse_search_body ((some { } : Option SearchBody).getD {})).limit) :=
  ⟨C8_results_sorted_and_limited.1 [exItemB, exItem] none none none none 5 none
      [exItem, exItemB] (by decide),
   C8_results_sorted_and_limited.2.1 [exItemB, exItem] ("nas-assets".data) none
      none none none 1 [exItem] (by decide),
   C8_results_sorted_and_limited.2.2 [exItemB, exItem] (some {}) [exItem, exItemB]
      (by decide)⟩

/-! ## Ingestion idempotence (C6) -/

/-- Ids already stored survive one conflict-do-nothing insert. -/
theorem mem_storeIds_insert_one (store : List ItemRow) (r : ItemRow) (i : Str)
    (h : i ∈ storeIds store) : i ∈ storeIds (insert_one store r) := by
  unfold insert_one
  split
  · exact h
  · simp only [storeIds, List.map_append, List.mem_append]
    exact Or.inl h

/-- Ids already stored survive a whole bulk insert. -/
theorem mem_storeIds_insert_items (store rows : List ItemRow) (i : Str)
    (h : i ∈ storeIds store) : i ∈ storeIds (insert_items store rows) := by
  induction rows generalizing store with
  | nil => exact h
  | cons r rs ih =>
      show i ∈ storeIds (insert_items (insert_one store r) rs)
      exact ih _ (mem_storeIds_insert_one _ _ _ h)

/-- Paths already stored survive one conflict-do-nothing insert. -/
theorem mem_storePaths_insert_one (store : List ItemRow) (r : ItemRow) (q : Str)
    (h : q ∈ storePaths store) : q ∈ storePaths (insert_one store r) := by
  unfold insert_one
  split
  · exact h
  · simp only [storePaths, List.map_append, List.mem_append]
    exact Or.inl h

/-- Paths already stored survive a whole bulk insert. -/
theorem mem_storePaths_insert_items (store rows : List ItemRow) (q : Str)
    (h : q ∈ storePaths store) : q ∈ storePaths (insert_items store rows) := by
  induction rows generalizing store with
  | nil => exact h
  | cons r rs ih =>
      show q ∈ storePaths (insert_items (insert_one store r) rs)
      exact ih _ (mem_storePaths_insert_one _ _ _ h)

/-- After inserting a row, its id is present (either it was added, or
the conflicting stored row already carried it). -/
theorem id_mem_insert_one_self (store : List ItemRow) (r : ItemRow) :
    r.id ∈ storeIds (insert_one store r) := by
  unfold insert_one
  split
  · rename_i hc
    rcases List.any_eq_true.mp hc with ⟨x, hx, hbeq⟩
    have hxr : x.id = r.id := by simpa using hbeq
    exact List.mem_map.mpr ⟨x, hx, hxr⟩
  · simp only [storeIds, List.map_append, List.mem_append]
    exact Or.inr (by simp)

/-- After a bulk insert, the id of every attempted row is present. -/
theorem id_mem_insert_items_of_mem (store rows : List ItemRow) (r : ItemRow)
    (h : r ∈ rows) : r.id ∈ storeIds (insert_items store rows) := by
  induction rows generalizing store with
  | nil => cases h
  | cons x xs ih =>
      show r.id ∈ storeIds (insert_items (insert_one store x) xs)
      rcases List.mem_cons.mp h with rfl | hx
      · exact mem_storeIds_insert_items _ _ _ (id_mem_insert_one_self store r)
      · exact ih _ hx

/-- A bulk insert whose rows all conflict on id is a complete no-op. -/
theorem insert_items_eq_self (store rows : List ItemRow)
    (h : ∀ r ∈ rows, r.id ∈ storeIds store) : insert_items store rows = store := by
  induction rows with
  | nil => rfl
  | cons r rs ih =>
      have hr := h r (List.mem_cons_self r rs)
      have e : insert_one store r = store := by
        unfold insert_one
        rw [if_pos]
        rcases List.mem_map.mp hr with ⟨x, hx, hid⟩
        exact List.any_eq_true.mpr ⟨x, hx, by simp [hid]⟩
      show insert_items (insert_one store r) rs = store
      rw [e]
      exact ih (fun r hrr => h r (List.mem_cons_of_mem _ hrr))

/-- Everything the existence check reports is a stored path. -/
theorem fetch_sub (store : List ItemRow) (l : List Str) (q : Str)
    (h : q ∈ fetch_existing_paths store l) : q ∈ storePaths store := by
  have hb := (List.mem_filter.mp h).2
  rcases List.any_eq_true.mp hb with ⟨r, hr, hbeq⟩
  have hq : r.nas_path = q := by simpa using hbeq
  exact List.mem_map.mpr ⟨r, hr, hq⟩

/-- A queried path that is stored is reported by the existence check. -/
theorem fetch_contains (store : List ItemRow) (l : List Str) (q : Str)
    (hq : q ∈ l) (hp : q ∈ storePaths store) :
    (fetch_existing_paths store l).contains q = true := by
  have hmem : q ∈ fetch_existing_paths store l := by
    apply List.mem_filter.mpr
    refine ⟨hq, ?_⟩
    rcases List.mem_map.mp hp with ⟨r, hr, hid⟩
    exact List.any_eq_true.mpr ⟨r, hr, by simp [hid]⟩
  simpa [List.contains] using List.elem_eq_true_of_mem hmem

/-- Processing one candidate never loses an id from store-plus-buffer. -/
theorem pc_stateIds_mono (hash : Str → Str) (cid : Str) (ib : Nat)
    (ex : List Str) (st : RunState) (f : FSFile) (i : Str)
    (h : i ∈ stateIds st) :
    i ∈ stateIds (process_candidate hash cid ib ex st f) := by
  unfold process_candidate
  split
  · exact h
  · split
    · exact h
    · rename_i m hm
      dsimp only
      split
      · rcases List.mem_append.mp h with hl | hr
        · exact List.mem_append.mpr
            (Or.inl (mem_storeIds_insert_items _ _ _ hl))
        · rcases List.mem_map.mp hr with ⟨r, hrp, hid⟩
          have hrp2 : r ∈ st.pending ++ [build_item_row hash cid f m] :=
            List.mem_append.mpr (Or.inl hrp)
          exact List.mem_append.mpr
            (Or.inl (hid ▸ id_mem_insert_items_of_mem _ _ _ hrp2))
      · rcases List.mem_append.mp h with hl | hr
        · exact List.mem_append.mpr (Or.inl hl)
        · rcases List.mem_map.mp hr with ⟨r, hrp, hid⟩
          exact List.mem_append.mpr (Or.inr (List.mem_map.mpr
            ⟨r, List.mem_append.mpr (Or.inl hrp), hid⟩))

/-- Processing one candidate never loses a stored path. -/
theorem pc_storePaths_mono (hash : Str → Str) (cid : Str) (ib : Nat)
    (ex : List Str) (st : RunState) (f : FSFile) (q : Str)
    (h : q ∈ storePaths st.store) :
    q ∈ storePaths (process_candidate hash cid ib ex st f).store := by
  unfold process_candidate
  split
  · exact h
  · split
    · exact h
    · dsimp only
      split
      · exact mem_storePaths_insert_items _ _ _ h
      · exact h

/-- After a candidate with extractable metadata is processed, either its
path was already stored (the skip case) or its computed id is in
store-plus-buffer. -/
theorem pc_establishes (hash : Str → Str) (cid : Str) (ib : Nat)
    (ex : List Str) (st : RunState) (f : FSFile) (m : AssetMeta)
    (hm : f.meta = some m) (hex : ∀ q ∈ ex, q ∈ storePaths st.store) :
    nas_path_of f ∈ storePaths (process_candidate hash cid ib ex st f).store
    ∨ item_id hash (nas_path_of f) ∈
        stateIds (process_candidate hash cid ib ex st f) := by
  unfold process_candidate
  split
  · rename_i hc
    left
    exact hex _ (List.mem_of_elem_eq_true (by simpa [List.contains] using hc))
  · split
    · rename_i hnone
      rw [hnone] at hm
      cases hm
    · rename_i m2 hm2
      have hrow : (build_item_row hash cid f m2).id = item_id hash (nas_path_of f) :=
        rfl
      dsimp only
      split
      · right
        refine List.mem_append.mpr (Or.inl ?_)
        exact hrow ▸ id_mem_insert_items_of_mem _ _ _
          (List.mem_append.mpr (Or.inr (by simp)))
      · right
        refine List.mem_append.mpr (Or.inr ?_)
        exact List.mem_map.mpr
          ⟨build_item_row hash cid f m2,
           List.mem_append.mpr (Or.inr (by simp)), hrow⟩

/-- Id preservation along one batch's candidate loop. -/
theorem pcfold_stateIds_mono (hash : Str → Str) (cid : Str) (ib : Nat)
    (ex : List Str) (batch : List FSFile) :
    ∀ st i, i ∈ stateIds st →
      i ∈ stateIds (batch.foldl (process_candidate hash cid ib ex) st) := by
  induction batch with
  | nil => intro st i h; exact h
  | cons g gs ih =>
      intro st i h
      exact ih _ _ (pc_stateIds_mono hash cid ib ex st g i h)

/-- Path preservation along one batch's candidate loop. -/
theorem pcfold_storePaths_mono (hash : Str → Str) (cid : Str) (ib : Nat)
    (ex : List Str) (batch : List FSFile) :
    ∀ st q, q ∈ storePaths st.store →
      q ∈ storePaths (batch.foldl (process_candidate hash cid ib ex) st).store := by
  induction batch with
  | nil => intro st q h; exact h
  | cons g gs ih =>
      intro st q h
      exact ih _ _ (pc_storePaths_mono hash cid ib ex st g q h)

/-- Every extractable candidate of a batch ends the candidate loop with
its path stored or its id in store-plus-buffer. -/
theorem pcfold_establishes (hash : Str → Str) (cid : Str) (ib : Nat)
    (ex : List Str) (batch : List FSFile) :
    ∀ st, (∀ q ∈ ex, q ∈ storePaths st.store) →
      ∀ f ∈ batch, ∀ m, f.meta = some m →
        nas_path_of f ∈
            storePaths (batch.foldl (process_candidate hash cid ib ex) st).store
        ∨ item_id hash (nas_path_of f) ∈
            stateIds (batch.foldl (process_candidate hash cid ib ex) st) := by
  induction batch with
  | nil => intro st _ f hf; cases hf
  | cons g gs ih =>
      intro st hex f hf m hm
      have hex1 : ∀ q ∈ ex,
          q ∈ storePaths (process_candidate hash cid ib ex st g).store :=
        fun q hq => pc_storePaths_mono hash cid ib ex st g q (hex q hq)
      rcases List.mem_cons.mp hf with rfl | hfs
      · rcases pc_establishes hash cid ib ex st f m hm hex with hl | hr
        · exact Or.inl (pcfold_storePaths_mono hash cid ib ex gs _ _ hl)
        · exact Or.inr (pcfold_stateIds_mono hash cid ib ex gs _ _ hr)
      · exact ih _ hex1 f hfs m hm

/-- Lifting `pcfold_establishes` to `process_batch` (the existence-check
result is by construction a subset of the stored paths). -/
theorem process_batch_establishes (hash : Str → Str) (cid : Str) (ib : Nat)
    (batch : List FSFile) (st : RunState) :
    ∀ f ∈ batch, ∀ m, f.meta = some m →
      nas_path_of f ∈ storePaths (process_batch hash cid ib st batch).store
      ∨ item_id hash (nas_path_of f) ∈
          stateIds (process_batch hash cid ib st batch) := by
  intro f hf m hm
  unfold process_batch
  exact pcfold_establishes hash cid ib _ batch st
    (fun q hq => fetch_sub _ _ _ hq) f hf m hm

/-- Id preservation along the whole scan loop. -/
theorem batchesfold_stateIds_mono (hash : Str → Str) (cid : Str) (ib : Nat)
    (bss : List (List FSFile)) :
    ∀ st i, i ∈ stateIds st →
      i ∈ stateIds (bss.foldl (process_batch hash cid ib) st) := by
  induction bss with
  | nil => intro st i h; exact h
  | cons b bs ih =>
      intro st i h
      refine ih _ _ ?_
      unfold process_batch
      exact pcfold_stateIds_mono hash cid ib _ b st i h

/-- Path preservation along the whole scan loop. -/
theorem batchesfold_storePaths_mono (hash : Str → Str) (cid : Str) (ib : Nat)
    (bss : List (List FSFile)) :
    ∀ st q, q ∈ storePaths st.store →
      q ∈ storePaths (bss.foldl (process_batch hash cid ib) st).store := by
  induction bss with
  | nil => intro st q h; exact h
  | cons b bs ih =>
      intro st q h
      refine ih _ _ ?_
      unfold process_batch
      exact pcfold_storePaths_mono hash cid ib _ b st q h

/-- Every extractable candidate of any batch ends the scan loop with
its path stored or its id in store-plus-buffer. -/
theorem batchesfold_establishes (hash : Str → Str) (cid : Str) (ib : Nat)
    (bss : List (List FSFile)) :
    ∀ st, ∀ b ∈ bss, ∀ f ∈ b, ∀ m, f.meta = some m →
      nas_path_of f ∈
          storePaths (bss.foldl (process_batch hash cid ib) st).store
      ∨ item_id hash (nas_path_of f) ∈
          stateIds (bss.foldl (process_batch hash cid ib) st) := by
  induction bss with
  | nil => intro st b hb; cases hb
  | cons b0 bs ih =>
      intro st b hb f hf m hm
      rcases List.mem_cons.mp hb with rfl | hbs
      · rcases process_batch_establishes hash cid ib b st f hf m hm with hl | hr
        · exact Or.inl (batchesfold_storePaths_mono hash cid ib bs _ _ hl)
        · exact Or.inr (batchesfold_stateIds_mono hash cid ib bs _ _ hr)
      · exact ih _ b hbs f hf m hm

/-- The end-of-run flush keeps every id of store-plus-buffer. -/
theorem finalize_ids (st : RunState) (i : Str) (h : i ∈ stateIds st) :
    i ∈ storeIds (insert_items st.store st.pending) := by
  rcases List.mem_append.mp h with hl | hr
  · exact mem_storeIds_insert_items _ _ _ hl
  · rcases List.mem_map.mp hr with ⟨r, hrp, hid⟩
    exact hid ▸ id_mem_insert_items_of_mem _ _ _ hrp

/-- The end-of-run flush keeps every stored path. -/
theorem finalize_paths (st : RunState) (q : Str) (h : q ∈ storePaths st.store) :
    q ∈ storePaths (insert_items st.store st.pending) :=
  mem_storePaths_insert_items _ _ _ h

/-- `chunked` partitions its input: flattening the chunks restores it. -/
theorem chunkAux_flatten (size : Nat) (l : List α) :
    ∀ acc : List α, (chunkAux size l acc).flatten = acc ++ l := by
  induction l with
  | nil =>
      intro acc
      unfold chunkAux
      split
      · rename_i hacc
        simp [List.isEmpty_iff.mp hacc]
      · simp
  | cons x xs ih =>
      intro acc
      unfold chunkAux
      dsimp only
      split
      · simp [ih]
      · rw [ih]
        simp

/-- Every scanned file lies in some chunk. -/
theorem mem_chunked (size : Nat) (l : List α) (x : α) (h : x ∈ l) :
    ∃ b ∈ chunked size l, x ∈ b := by
  have hx : x ∈ (chunked size l).flatten := by
    unfold chunked
    rw [chunkAux_flatten]
    simpa using h
  exact List.mem_flatten.mp hx

/-- After one full ingestion run, every extractable candidate has its
path stored or its id stored. -/
theorem ingest_establishes (hash : Str → Str) (cid : Str) (bs ib : Nat)
    (files : List FSFile) (store : List ItemRow) (f : FSFile)
    (hf : f ∈ files) (m : AssetMeta) (hm : f.meta = some m) :
    nas_path_of f ∈ storePaths (ingest_run hash cid bs ib files store)
    ∨ item_id hash (nas_path_of f) ∈
        storeIds (ingest_run hash cid bs ib files store) := by
  obtain ⟨b, hb, hfb⟩ := mem_chunked bs files f hf
  unfold ingest_run
  dsimp only
  rcases batchesfold_establishes hash cid ib (chunked bs files)
      { store := store, pending := [] } b hb f hfb m hm with hl | hr
  · exact Or.inl (finalize_paths _ _ hl)
  · exact Or.inr (finalize_ids _ _ hr)

/-- A candidate that is already accounted for (no metadata, or path
stored, or id stored) leaves a saturated state saturated: the store
stays `S` and buffered rows keep conflicting ids. -/
theorem pc_fix (hash : Str → Str) (cid : Str) (ib : Nat) (ex : List Str)
    (S : List ItemRow) (st : RunState) (f : FSFile) (hst : st.store = S)
    (hp : ∀ r ∈ st.pending, r.id ∈ storeIds S)
    (hex : nas_path_of f ∈ storePaths S → ex.contains (nas_path_of f) = true)
    (hgood : f.meta = none ∨ nas_path_of f ∈ storePaths S
      ∨ item_id hash (nas_path_of f) ∈ storeIds S) :
    (process_candidate hash cid ib ex st f).store = S
    ∧ ∀ r ∈ (process_candidate hash cid ib ex st f).pending,
        r.id ∈ storeIds S := by
  unfold process_candidate
  split
  · exact ⟨hst, hp⟩
  · rename_i hc
    split
    · exact ⟨hst, hp⟩
    · rename_i m hm
      have hid : item_id hash (nas_path_of f) ∈ storeIds S := by
        rcases hgood with h0 | h1 | h2
        · rw [h0] at hm; cases hm
        · exact absurd (hex h1) hc
        · exact h2
      have hpend : ∀ r ∈ st.pending ++ [build_item_row hash cid f m],
          r.id ∈ storeIds S := by
        intro r hr
        rcases List.mem_append.mp hr with h1 | h1
        · exact hp r h1
        · rcases List.mem_singleton.mp h1 with rfl
          exact hid
      dsimp only
      split
      · refine ⟨?_, ?_⟩
        · rw [hst]
          exact insert_items_eq_self S _ hpend
        · intro r hr
          cases hr
      · exact ⟨hst, hpend⟩

/-- `pc_fix` along one batch's candidate loop. -/
theorem pcfold_fix (hash : Str → Str) (cid : Str) (ib : Nat) (ex : List Str)
    (S : List ItemRow) (batch : List FSFile) :
    ∀ st, st.store = S → (∀ r ∈ st.pending, r.id ∈ storeIds S) →
      (∀ f ∈ batch,
        (nas_path_of f ∈ storePaths S → ex.contains (nas_path_of f) = true)
        ∧ (f.meta = none ∨ nas_path_of f ∈ storePaths S
            ∨ item_id hash (nas_path_of f) ∈ storeIds S)) →
      (batch.foldl (process_candidate hash cid ib ex) st).store = S
      ∧ ∀ r ∈ (batch.foldl (process_candidate hash cid ib ex) st).pending,
          r.id ∈ storeIds S := by
  induction batch with
  | nil => intro st h1 h2 _; exact ⟨h1, h2⟩
  | cons g gs ih =>
      intro st h1 h2 h3
      obtain ⟨hg1, hg2⟩ := h3 g (List.mem_cons_self g gs)
      obtain ⟨e1, e2⟩ := pc_fix hash cid ib ex S st g h1 h2 hg1 hg2
      exact ih _ e1 e2 (fun f hf => h3 f (List.mem_cons_of_mem g hf))

/-- `pc_fix` through one whole batch, with the real existence check. -/
theorem process_batch_fix (hash : Str → Str) (cid : Str) (ib : Nat)
    (S : List ItemRow) (batch : List FSFile) (st : RunState)
    (h1 : st.store = S) (h2 : ∀ r ∈ st.pending, r.id ∈ storeIds S)
    (hgood : ∀ f ∈ batch, f.meta = none ∨ nas_path_of f ∈ storePaths S
      ∨ item_id hash (nas_path_of f) ∈ storeIds S) :
    (process_batch hash cid ib st batch).store = S
    ∧ ∀ r ∈ (process_batch hash cid ib st batch).pending,
        r.id ∈ storeIds S := by
  unfold process_batch
  apply pcfold_fix hash cid ib _ S batch st h1 h2
  intro f hf
  refine ⟨fun hpath => ?_, hgood f hf⟩
  rw [h1]
  exact fetch_contains S (batch.map nas_path_of) (nas_path_of f)
    (List.mem_map.mpr ⟨f, hf, rfl⟩) hpath

/-- `pc_fix` along the whole scan loop. -/
theorem batchesfold_fix (hash : Str → Str) (cid : Str) (ib : Nat)
    (S : List ItemRow) (bss : List (List FSFile)) :
    ∀ st, st.store = S → (∀ r ∈ st.pending, r.id ∈ storeIds S) →
      (∀ b ∈ bss, ∀ f ∈ b, f.meta = none ∨ nas_path_of f ∈ storePaths S
        ∨ item_id hash (nas_path_of f) ∈ storeIds S) →
      (bss.foldl (process_batch hash cid ib) st).store = S
      ∧ ∀ r ∈ (bss.foldl (process_batch hash cid ib) st).pending,
          r.id ∈ storeIds S := by
  induction bss with
  | nil => intro st h1 h2 _; exact ⟨h1, h2⟩
  | cons b bs ih =>
      intro st h1 h2 h3
      obtain ⟨e1, e2⟩ := process_batch_fix hash cid ib S b st h1 h2
        (h3 b (List.mem_cons_self b bs))
      exact ih _ e1 e2 (fun b2 hb2 => h3 b2 (List.mem_cons_of_mem b hb2))

/-- A run over candidates that are all accounted for changes nothing. -/
theorem ingest_run_fix (hash : Str → Str) (cid : Str) (bs ib : Nat)
    (files : List FSFile) (S : List ItemRow)
    (hgood : ∀ f ∈ files, f.meta = none ∨ nas_path_of f ∈ storePaths S
      ∨ item_id hash (nas_path_of f) ∈ storeIds S) :
    ingest_run hash cid bs ib files S = S := by
  unfold ingest_run
  dsimp only
  have h3 : ∀ b ∈ chunked bs files, ∀ f ∈ b, f.meta = none
      ∨ nas_path_of f ∈ storePaths S
      ∨ item_id hash (nas_path_of f) ∈ storeIds S := by
    intro b hb f hf
    have hfl : f ∈ files := by
      have hmem : f ∈ (chunked bs files).flatten := List.mem_flatten.mpr ⟨b, hb, hf⟩
      unfold chunked at hmem
      rw [chunkAux_flatten] at hmem
      simpa using hmem
    exact hgood f hfl
  obtain ⟨e1, e2⟩ := batchesfold_fix hash cid ib S (chunked bs files)
    { store := S, pending := [] } rfl (by simp) h3
  rw [e1]
  exact insert_items_eq_self S _ e2

/-- C6 counterexample: a crawl candidate with no determinable CRS is
never persisted, so the second run's batched existence check reports it
absent — yet the second run still inserts nothing (it is skipped again
by the failed extraction, not by the existence check). -/
theorem C6_counterexample :
    noCrsFile.path ∈ iter_asset_paths [noCrsFile.path] ["nas".data]
    ∧ fetch_existing_paths
        (ingest_run (fun s => s) ("c".data) 200 100 [noCrsFile] [])
        [nas_path_of noCrsFile] = []
    ∧ ingest_run (fun s => s) ("c".data) 200 100 [noCrsFile]
        (ingest_run (fun s => s) ("c".data) 200 100 [noCrsFile] []) =
      ingest_run (fun s => s) ("c".data) 200 100 [noCrsFile] [] := by
  refine ⟨by decide, by decide, by decide⟩

/-- C6 (amended).  Re-running ingestion over an unchanged source tree
against the store the first run produced changes the store not at all —
zero additional items: every candidate persisted by the first run is
reported present by the existence check and skipped, and every other
candidate is skipped again for its original reason (failed metadata
extraction, or an id conflict at insert time). -/
theorem C6_second_run_inserts_nothing (hash : Str → Str) (cid : Str)
    (bs ib : Nat) (files : List FSFile) (store : List ItemRow) :
    ingest_run hash cid bs ib files (ingest_run hash cid bs ib files store) =
      ingest_run hash cid bs ib files store := by
  apply ingest_run_fix
  intro f hf
  cases hm : f.meta with
  | none => exact Or.inl rfl
  | some m =>
      rcases ingest_establishes hash cid bs ib files store f hf m hm with hl | hr
      · exact Or.inr (Or.inl hl)
      · exact Or.inr (Or.inr hr)
